import Mathlib

/-!
Verification development for a small weather-agent system consisting of a
tool backend (`server.py`) and a turn-orchestrating agent client
(`agent_client.py`).

The backend tools and the client's turn loop are shallowly embedded:
external collaborators (the weather HTTP provider, the streaming tool
session, and the language-model provider) are modelled as oracles whose
outcome for each interaction point is an explicit parameter, and Python
exceptions are modelled as explicit outcome constructors.  Numeric
temperatures flow through the code opaquely (they are only interpolated
into strings), so they are carried as already-rendered strings.
-/

set_option autoImplicit false

/-! ## Tool backend (`server.py`) -/

/-- One entry of the provider's forecast `list` field: `dt_txt`, the first
weather description, and the (string-rendered) temperature. -/
structure ForecastItem where
  dt_txt : String
  desc : String
  temp : String
deriving DecidableEq, Repr

/-- `item["dt_txt"].split(" ")[0]`: the prefix of `dt_txt` before its first
space character (the calendar date of the entry). -/
def dateOf (it : ForecastItem) : String :=
  ⟨it.dt_txt.data.takeWhile (fun c => c ≠ ' ')⟩

/-- The per-day line `f"{date}: {desc}, {temp}°C"` built by `get_forecast`. -/
def formatLine (it : ForecastItem) : String :=
  dateOf it ++ ": " ++ it.desc ++ ", " ++ it.temp ++ "°C"

/-- Fields of the current-conditions payload that `get_current_weather`
extracts: description, temperature and humidity. -/
structure CurrentData where
  desc : String
  temp : String
  humidity : String
deriving DecidableEq, Repr

/-- Outcome of one weather-provider HTTP interaction as seen from inside the
tool's `try` block: a successful decoded payload, an `httpx.HTTPStatusError`
carrying the response body, or any other exception carrying its message
(unreachable host, missing JSON fields, ...). -/
inductive FetchOutcome (α : Type) where
  | ok (data : α)
  | httpError (body : String)
  | exn (msg : String)
deriving DecidableEq, Repr

/-- Python truthiness of the `OPENWEATHER_API_KEY` value: `None` (unset) and
the empty string are both falsy. -/
def keyFalsy : Option String → Bool
  | none => true
  | some s => s = ""

/-- `_get_weather_data`: raises `ValueError("OPENWEATHER_API_KEY is not
set.")` before issuing any request when the key is falsy; otherwise the
result is whatever the provider interaction yields. -/
def get_weather_data {α : Type} (key : Option String) (provider : FetchOutcome α) :
    FetchOutcome α :=
  if keyFalsy key then .exn "OPENWEATHER_API_KEY is not set." else provider

/-- `get_current_weather(city)`: formats the success payload, and converts the
two exception classes to the corresponding error text. -/
def get_current_weather (key : Option String) (city : String)
    (provider : FetchOutcome CurrentData) : String :=
  match get_weather_data key provider with
  | .ok d =>
      "Current weather in " ++ city ++ ": " ++ d.desc ++ ", Temperature: " ++
        d.temp ++ "°C, Humidity: " ++ d.humidity ++ "%"
  | .httpError b => "Error fetching weather: " ++ b
  | .exn m => "An error occurred: " ++ m

/-- The accumulation loop of `get_forecast`: walk the provider entries,
skip dates already in `seen_dates`, append the formatted line for a fresh
date, and break as soon as `len(forecasts) >= days` after an append.
The comparison is on Python ints, hence `Int` here. -/
def forecastLoop : List ForecastItem → List String → List String → Int → List String
  | [], _, forecasts, _ => forecasts
  | it :: rest, seen, forecasts, days =>
      if dateOf it ∈ seen then forecastLoop rest seen forecasts days
      else
        let forecasts2 := forecasts ++ [formatLine it]
        if (forecasts2.length : Int) ≥ days then forecasts2
        else forecastLoop rest (dateOf it :: seen) forecasts2 days

/-- `get_forecast(city, days)`: clamps `days` at 5, fetches the forecast
(the `.ok` payload is the provider's `list` field, defaulting to `[]`),
runs the dedup/collect loop and joins the lines under a header; exceptions
become error text exactly as in `get_current_weather`. -/
def get_forecast (key : Option String) (city : String) (days : Int)
    (provider : FetchOutcome (List ForecastItem)) : String :=
  let days2 := if days > 5 then (5 : Int) else days
  match get_weather_data key provider with
  | .ok items =>
      "Forecast for " ++ city ++ ":\n" ++
        String.intercalate "\n" (forecastLoop items [] [] days2)
  | .httpError b => "Error fetching forecast: " ++ b
  | .exn m => "An error occurred: " ++ m

/-! Specification-side reference for the dedup behaviour: the subsequence of
provider entries keeping the first entry of each calendar date (this is the
spec's description of the loop; the theorems relate `forecastLoop` to it). -/

/-- First-entry-per-date subsequence of the provider list, in provider
order, skipping dates in `seen`. -/
def dedupByDate : List ForecastItem → List String → List ForecastItem
  | [], _ => []
  | it :: rest, seen =>
      if dateOf it ∈ seen then dedupByDate rest seen
      else it :: dedupByDate rest (dateOf it :: seen)

/-- The entries whose lines a successful `get_forecast(city, days)` call with
`days ≥ 1` returns: the first `min days 5` first-per-date entries. -/
def specForecastEntries (items : List ForecastItem) (days : Int) : List ForecastItem :=
  (dedupByDate items []).take (min days 5).toNat

/-! ## Agent client (`agent_client.py`) -/

/-- A transcript entry `\x7brole, content, tool_call_id\x7d` as appended by the
turn orchestrator (`tool_call_id` is present only on tool-role entries). -/
structure Message where
  role : String
  content : String
  tool_call_id : Option String
deriving DecidableEq, Repr

/-- One tool call requested by the model: `tool_call.id` (read with
`getattr(tool_call, "id", None)`, hence optional), `tool_call.function.name`,
and the raw `tool_call.function.arguments` string (possibly absent). -/
structure ToolCall where
  id : Option String
  name : String
  arguments : Option String
deriving DecidableEq, Repr

/-- The model's first response: its textual content (read with
`getattr(assistant_msg, "content", "")`) and its requested tool calls (an
empty list models a falsy `tool_calls` attribute). -/
structure AssistantMsg where
  content : String
  tool_calls : List ToolCall
deriving DecidableEq, Repr

/-- One element of a tool result's `content` list: a `TextContent` carrying
`.text`, or any other content object carrying its `str(...)` rendering. -/
inductive ContentItem where
  | text (s : String)
  | other (rendering : String)
deriving DecidableEq, Repr

/-- A successfully returned `session.call_tool` result: either it has a
`content` attribute (a list of content items) or it does not, in which case
its `str(...)` rendering is used. -/
inductive ToolResult where
  | withContent (items : List ContentItem)
  | noContent (rendering : String)
deriving DecidableEq, Repr

/-- Outcome of an external interaction inside the client's top-level `try`:
either a value or a raised exception carrying its message. -/
inductive StageOutcome (α : Type) where
  | ok (a : α)
  | raised (msg : String)
deriving DecidableEq, Repr

/-- Outcome of the plain-HTTP health probe: a response with a status code,
or a raised exception carrying its message. -/
inductive HealthOutcome where
  | status (code : Int)
  | error (msg : String)
deriving DecidableEq, Repr

/-- A parsed JSON argument object, as key/value pairs (values rendered as
strings; they flow opaquely into `session.call_tool`). -/
abbrev Args := List (String × String)

/-- A tool descriptor returned by `session.list_tools()`. -/
structure MCPTool where
  name : String
  description : Option String
  inputSchema : String
deriving DecidableEq, Repr

/-- The environment of one turn: outcomes of every external interaction the
orchestrator performs, in order.  `setup` bundles `sse_client`,
`ClientSession`, `initialize` and `list_tools` (none of which touch the
transcript); `parseJson` is the behaviour of `json.loads` on argument
strings; `toolResults i` is the outcome of the `i`-th `session.call_tool`
invocation of the turn. -/
structure TurnEnv where
  health : HealthOutcome
  setup : StageOutcome (List MCPTool)
  firstCall : StageOutcome AssistantMsg
  parseJson : String → Option Args
  toolResults : Nat → StageOutcome ToolResult
  secondCall : StageOutcome String

/-- Observable result of `run_agent_turn`: the transcript after the turn, the
number of model invocations attempted, whether the streaming-session stage
was reached, the `st.error` messages surfaced, and the `session.call_tool`
invocations performed (name and parsed arguments). -/
structure TurnResult where
  messages : List Message
  modelCalls : Nat
  sessionAttempted : Bool
  errors : List String
  toolInvocations : List (String × Args)
deriving DecidableEq, Repr

/-- `json.loads(tool_call.function.arguments or "\x7b\x7d")` with the
`except` fallback to `\x7b\x7d`: an absent or empty (falsy) arguments string
is replaced by the literal `"\x7b\x7d"` before parsing, and a parse failure
degrades to the empty object. -/
def parseArgs (parse : String → Option Args) (arguments : Option String) : Args :=
  let s :=
    match arguments with
    | none => "\x7b\x7d"
    | some a => if a = "" then "\x7b\x7d" else a
  (parse s).getD []

/-- Per-item contribution to `output_text`: `content.text + "\n"` for
`TextContent`, `str(content) + "\n"` otherwise. -/
def contentToText : ContentItem → String
  | .text s => s ++ "\n"
  | .other r => r ++ "\n"

/-- The tool message content built from a successful call result. -/
def formatOutput : ToolResult → String
  | .withContent items => String.join (items.map contentToText)
  | .noContent r => r

/-- The per-tool-call loop: for each requested call in order, parse its
arguments, invoke the tool (recording the invocation), and append one
tool-role message — the failure text if the invocation raised, the formatted
output otherwise — then continue with the next call.  `i` counts the
invocations already performed this turn. -/
def toolLoop (env : TurnEnv) :
    List ToolCall → Nat → List Message → List (String × Args) →
      List Message × List (String × Args)
  | [], _, msgs, invs => (msgs, invs)
  | tc :: rest, i, msgs, invs =>
      let args := parseArgs env.parseJson tc.arguments
      let invs2 := invs ++ [(tc.name, args)]
      match env.toolResults i with
      | .raised te =>
          toolLoop env rest (i + 1)
            (msgs ++ [⟨"tool", "Tool " ++ tc.name ++ " call failed: " ++ te, tc.id⟩]) invs2
      | .ok r =>
          toolLoop env rest (i + 1)
            (msgs ++ [⟨"tool", formatOutput r, tc.id⟩]) invs2

/-- The tool-role message the loop appends for the `i`-th invocation when the
requested call is `tc`. -/
def toolMessageFor (env : TurnEnv) (i : Nat) (tc : ToolCall) : Message :=
  match env.toolResults i with
  | .raised te => ⟨"tool", "Tool " ++ tc.name ++ " call failed: " ++ te, tc.id⟩
  | .ok r => ⟨"tool", formatOutput r, tc.id⟩

/-- The assistant message ending a tool-call turn: the second model call's
content, or the synthetic `[agent error]` message appended by the top-level
handler when that call raises. -/
def finalAssistantFor (env : TurnEnv) : Message :=
  match env.secondCall with
  | .ok c => ⟨"assistant", c, none⟩
  | .raised e => ⟨"assistant", "[agent error] " ++ e, none⟩

/-- `run_agent_turn(user_input)` over the turn environment: append the user
message; probe health (aborting with a surfaced error on a non-200 status or
a probe exception); then, inside the top-level `try`, set up the session,
make the first model call, branch on `tool_calls`, run the tool loop, and
make the second model call; any raise in the `try` surfaces an error and
appends a synthetic `[agent error]` assistant message.  Transcript entries
appended by this code are always plain records, so the normalisation passes
(which coerce foreign entries) act as the identity and are not modelled. -/
def run_agent_turn (env : TurnEnv) (user_input : String)
    (messages0 : List Message) : TurnResult :=
  let messages1 := messages0 ++ [⟨"user", user_input, none⟩]
  match env.health with
  | .error m =>
      ⟨messages1, 0, false, ["Backend health check error: " ++ m], []⟩
  | .status code =>
      if code ≠ 200 then
        ⟨messages1, 0, false, ["Backend health check failed: " ++ toString code], []⟩
      else
        match env.setup with
        | .raised e =>
            ⟨messages1 ++ [⟨"assistant", "[agent error] " ++ e, none⟩], 0, true,
              ["Connection / agent runtime error: " ++ e], []⟩
        | .ok _tools =>
            match env.firstCall with
            | .raised e =>
                ⟨messages1 ++ [⟨"assistant", "[agent error] " ++ e, none⟩], 1, true,
                  ["Connection / agent runtime error: " ++ e], []⟩
            | .ok am =>
                if am.tool_calls = [] then
                  ⟨messages1 ++ [⟨"assistant", am.content, none⟩], 1, true, [], []⟩
                else
                  let messages2 := messages1 ++ [⟨"assistant", am.content, none⟩]
                  let looped := toolLoop env am.tool_calls 0 messages2 []
                  match env.secondCall with
                  | .raised e =>
                      ⟨looped.1 ++ [⟨"assistant", "[agent error] " ++ e, none⟩], 2, true,
                        ["Connection / agent runtime error: " ++ e], looped.2⟩
                  | .ok finalContent =>
                      ⟨looped.1 ++ [⟨"assistant", finalContent, none⟩], 2, true, [],
                        looped.2⟩

/-- Result of client startup. -/
inductive StartupResult where
  | halted (err : String)
  | started
deriving DecidableEq, Repr

/-- The client's startup guard: `if not OPENROUTER_API_KEY: st.error(...);
st.stop()` — a falsy key (unset or empty) halts before any turn runs. -/
def client_startup (key : Option String) : StartupResult :=
  if keyFalsy key then
    .halted "OPENROUTER_API_KEY not found in environment variables."
  else .started

/-! ## Lemmas about the forecast loop -/

/-- While the accumulator is still below the `days` bound, the forecast loop
produces the accumulator followed by the formatted lines of the next
`(days - acc.length)` first-per-date entries. -/
theorem forecastLoop_eq_dedup :
    ∀ (items : List ForecastItem) (seen acc : List String) (d : Int),
      (acc.length : Int) < d →
      forecastLoop items seen acc d =
        acc ++ ((dedupByDate items seen).take (d - acc.length).toNat).map formatLine
  | [], _, acc, d, _ => by simp [forecastLoop, dedupByDate]
  | it :: rest, seen, acc, d, h => by
      by_cases hmem : dateOf it ∈ seen
      · rw [show forecastLoop (it :: rest) seen acc d = forecastLoop rest seen acc d from
          if_pos hmem, show dedupByDate (it :: rest) seen = dedupByDate rest seen from
          if_pos hmem]
        exact forecastLoop_eq_dedup rest seen acc d h
      · rw [show dedupByDate (it :: rest) seen =
          it :: dedupByDate rest (dateOf it :: seen) from if_neg hmem]
        by_cases hbreak : ((acc ++ [formatLine it]).length : Int) ≥ d
        · have hstop : forecastLoop (it :: rest) seen acc d = acc ++ [formatLine it] := by
            simp only [forecastLoop, if_neg hmem]
            exact if_pos hbreak
          have hlen : (acc.length : Int) + 1 ≥ d := by
            simpa using hbreak
          have h1 : (d - acc.length).toNat = 1 := by omega
          rw [hstop, h1]
          simp
        · have hstep : forecastLoop (it :: rest) seen acc d =
              forecastLoop rest (dateOf it :: seen) (acc ++ [formatLine it]) d := by
            simp only [forecastLoop, if_neg hmem]
            exact if_neg hbreak
          have hlt : (((acc ++ [formatLine it]).length : Int)) < d := by
            simp only [ge_iff_le, not_le] at hbreak
            exact hbreak
          rw [hstep, forecastLoop_eq_dedup rest (dateOf it :: seen) (acc ++ [formatLine it]) d hlt]
          have hsucc : (d - acc.length).toNat =
              ((d - (acc ++ [formatLine it]).length).toNat) + 1 := by
            simp only [List.length_append, List.length_singleton]
            omega
          rw [hsucc, List.take_succ_cons]
          simp

/-- The dates of the first-per-date subsequence are pairwise distinct and
avoid the `seen` set. -/
theorem dedupByDate_dates_nodup :
    ∀ (items : List ForecastItem) (seen : List String),
      ((dedupByDate items seen).map dateOf).Nodup ∧
      ∀ x ∈ (dedupByDate items seen).map dateOf, x ∉ seen
  | [], _ => by simp [dedupByDate]
  | it :: rest, seen => by
      by_cases hmem : dateOf it ∈ seen
      · rw [show dedupByDate (it :: rest) seen = dedupByDate rest seen from if_pos hmem]
        exact dedupByDate_dates_nodup rest seen
      · rw [show dedupByDate (it :: rest) seen =
          it :: dedupByDate rest (dateOf it :: seen) from if_neg hmem]
        obtain ⟨hnd, havoid⟩ := dedupByDate_dates_nodup rest (dateOf it :: seen)
        refine ⟨List.nodup_cons.mpr ⟨fun hx => ?_, hnd⟩, ?_⟩
        · exact havoid _ hx (List.mem_cons_self _ _)
        · intro x hx
          rcases List.mem_cons.mp hx with hx | hx
          · exact hx ▸ hmem
          · exact fun hs => havoid x hx (List.mem_cons_of_mem _ hs)

/-- The first-per-date subsequence is a sublist of the provider list, so its
entries appear in provider-returned order. -/
theorem dedupByDate_sublist :
    ∀ (items : List ForecastItem) (seen : List String),
      (dedupByDate items seen).Sublist items
  | [], _ => by simp [dedupByDate]
  | it :: rest, seen => by
      by_cases hmem : dateOf it ∈ seen
      · rw [show dedupByDate (it :: rest) seen = dedupByDate rest seen from if_pos hmem]
        exact (dedupByDate_sublist rest seen).cons it
      · rw [show dedupByDate (it :: rest) seen =
          it :: dedupByDate rest (dateOf it :: seen) from if_neg hmem]
        exact (dedupByDate_sublist rest (dateOf it :: seen)).cons₂ it

/-! ## Lemmas about the tool loop -/

/-- The tool loop appends exactly one tool message per requested call, in
request order, the `i`-th built from the `i`-th invocation outcome. -/
theorem toolLoop_fst (env : TurnEnv) :
    ∀ (tcs : List ToolCall) (i : Nat) (msgs : List Message)
      (invs : List (String × Args)),
      (toolLoop env tcs i msgs invs).1 =
        msgs ++ (tcs.enumFrom i).map (fun p => toolMessageFor env p.1 p.2)
  | [], _, msgs, _ => by simp [toolLoop]
  | tc :: rest, i, msgs, invs => by
      cases h : env.toolResults i with
      | raised te =>
          simp only [toolLoop, h, toolLoop_fst env rest (i + 1), List.enumFrom,
            List.map_cons, toolMessageFor]
          simp [h]
      | ok r =>
          simp only [toolLoop, h, toolLoop_fst env rest (i + 1), List.enumFrom,
            List.map_cons, toolMessageFor]
          simp [h]

/-- The tool loop records exactly one invocation per requested call, with the
parsed arguments. -/
theorem toolLoop_snd (env : TurnEnv) :
    ∀ (tcs : List ToolCall) (i : Nat) (msgs : List Message)
      (invs : List (String × Args)),
      (toolLoop env tcs i msgs invs).2 =
        invs ++ tcs.map (fun tc => (tc.name, parseArgs env.parseJson tc.arguments))
  | [], _, _, invs => by simp [toolLoop]
  | tc :: rest, i, msgs, invs => by
      cases h : env.toolResults i with
      | raised te =>
          simp only [toolLoop, h, toolLoop_snd env rest (i + 1), List.map_cons]
          simp
      | ok r =>
          simp only [toolLoop, h, toolLoop_snd env rest (i + 1), List.map_cons]
          simp

/-- In a list of tool calls with pairwise-distinct ids, an id that occurs
occurs in exactly one call. -/
theorem filter_id_length_one :
    ∀ (tcs : List ToolCall) (x : Option String),
      (tcs.map ToolCall.id).Nodup → x ∈ tcs.map ToolCall.id →
      (tcs.filter (fun tc => tc.id = x)).length = 1
  | [], x, _, hx => by simp at hx
  | tc :: rest, x, hnd, hx => by
      rw [List.map_cons] at hnd hx
      obtain ⟨hnotin, hnd'⟩ := List.nodup_cons.mp hnd
      rcases List.mem_cons.mp hx with hx | hx
      · subst hx
        have hfil : rest.filter (fun a => a.id = tc.id) = [] := by
          rw [List.filter_eq_nil_iff]
          intro a ha hax
          simp only [decide_eq_true_eq] at hax
          exact hnotin (hax ▸ List.mem_map_of_mem ToolCall.id ha)
        simp [List.filter_cons, hfil]
      · have hne : tc.id ≠ x := fun he => hnotin (he ▸ hx)
        have ih := filter_id_length_one rest x hnd' hx
        simp [List.filter_cons, hne, ih]

/-! ## Claims about the backend tools -/

/-- C1 (counterexample): at `days = 0` with one provider entry, `get_forecast`
returns one dated line, exceeding the claimed bound of `min(days, 5) = 0`
distinct dates — the `len(forecasts) >= days` break check runs only after the
first append. -/
theorem c1_min_bound_fails_at_zero_days :
    (forecastLoop [⟨"2024-01-01 00:00:00", "clear", "5"⟩] [] [] 0).length = 1 ∧
    ¬(((forecastLoop [⟨"2024-01-01 00:00:00", "clear", "5"⟩] [] [] 0).length : Int) ≤
        min (0 : Int) 5) ∧
    get_forecast (some "k") "X" 0 (.ok [⟨"2024-01-01 00:00:00", "clear", "5"⟩]) =
      "Forecast for X:\n2024-01-01: clear, 5°C" := by
  refine ⟨by decide, by decide, by decide⟩

/-- C1 (amended): for `days ≥ 1`, a successful `get_forecast(city, days)`
renders exactly the first `min(days, 5)` first-per-date provider entries,
whose dates are pairwise distinct and which appear in provider-returned
order (they form a sublist of the provider list). -/
theorem c1_forecast_dedup_clamp_order (k city : String) (items : List ForecastItem)
    (d : Int) (hk : k ≠ "") (hd : 1 ≤ d) :
    get_forecast (some k) city d (.ok items) =
      "Forecast for " ++ city ++ ":\n" ++
        String.intercalate "\n" ((specForecastEntries items d).map formatLine) ∧
    ((specForecastEntries items d).map dateOf).Nodup ∧
    ((specForecastEntries items d).length : Int) ≤ min d 5 ∧
    (specForecastEntries items d).Sublist items := by
  have hkey : keyFalsy (some k) = false := by simp [keyFalsy, hk]
  have hclamp : (if d > 5 then (5 : Int) else d) = min d 5 := by
    rcases le_or_lt d 5 with h5 | h5
    · rw [if_neg (by omega)]
      exact (min_eq_left h5).symm
    · rw [if_pos (by omega)]
      exact (min_eq_right (by omega)).symm
  have hmin1 : (1 : Int) ≤ min d 5 := le_min hd (by omega)
  have hloop := forecastLoop_eq_dedup items [] [] (min d 5) (by simp; omega)
  refine ⟨?_, ?_, ?_, ?_⟩
  · simp only [get_forecast, get_weather_data, hkey, Bool.false_eq_true, if_false, hclamp]
    rw [hloop]
    simp [specForecastEntries]
  · have h2 : (specForecastEntries items d).map dateOf =
        ((dedupByDate items []).map dateOf).take (min d 5).toNat := by
      simp [specForecastEntries, List.map_take]
    rw [h2]
    exact List.Nodup.sublist (List.take_sublist _ _) (dedupByDate_dates_nodup items []).1
  · have hle := List.length_take_le (min d 5).toNat (dedupByDate items [])
    simp only [specForecastEntries]
    omega
  · simp only [specForecastEntries]
    exact (List.take_sublist _ _).trans (dedupByDate_sublist items [])

/-- Concrete provider list used by the C1 witness: two entries share the
first date. -/
def c1Items : List ForecastItem :=
  [⟨"2024-01-01 00:00:00", "a", "1"⟩, ⟨"2024-01-01 03:00:00", "b", "2"⟩,
    ⟨"2024-01-02 00:00:00", "c", "3"⟩]

/-- C1 (witness): the amended statement instantiated at `days = 2` on a list
with a duplicated date. -/
theorem c1_forecast_dedup_clamp_order_witness :
    get_forecast (some "k") "X" 2 (.ok c1Items) =
      "Forecast for " ++ "X" ++ ":\n" ++
        String.intercalate "\n" ((specForecastEntries c1Items 2).map formatLine) ∧
    ((specForecastEntries c1Items 2).map dateOf).Nodup ∧
    ((specForecastEntries c1Items 2).length : Int) ≤ min 2 5 ∧
    (specForecastEntries c1Items 2).Sublist c1Items :=
  c1_forecast_dedup_clamp_order "k" "X" c1Items 2 (by decide) (by decide)

/-- C2 (counterexample): `get_forecast(city, 0)` with one provider entry does
not return a bare header — it returns the header plus one forecast line,
because the break check follows the first append. -/
theorem c2_zero_days_yields_one_line :
    get_forecast (some "k") "Y" 0 (.ok [⟨"2024-01-01 00:00:00", "rain", "7"⟩]) =
      "Forecast for Y:\n2024-01-01: rain, 7°C" ∧
    get_forecast (some "k") "Y" 0 (.ok [⟨"2024-01-01 00:00:00", "rain", "7"⟩]) ≠
      "Forecast for Y:\n" := by
  refine ⟨by decide, by decide⟩

/-- C2 (amended): `get_forecast(city, days)` with `days ≤ 0` does not fail:
it returns the header followed by the line of the first provider entry when
the provider list is nonempty, and the bare header when it is empty — i.e.
the lines of `items.take 1`, not zero lines. -/
theorem c2_nonpos_days_first_line (k city : String) (items : List ForecastItem)
    (d : Int) (hk : k ≠ "") (hd : d ≤ 0) :
    get_forecast (some k) city d (.ok items) =
      "Forecast for " ++ city ++ ":\n" ++
        String.intercalate "\n" ((items.take 1).map formatLine) := by
  have hkey : keyFalsy (some k) = false := by simp [keyFalsy, hk]
  have hclamp : (if d > 5 then (5 : Int) else d) = d := if_neg (by omega)
  cases items with
  | nil =>
      simp [get_forecast, get_weather_data, hkey, hclamp, forecastLoop]
  | cons it rest =>
      have hloop : forecastLoop (it :: rest) [] [] d = [formatLine it] := by
        simp only [forecastLoop, List.not_mem_nil, if_false, List.nil_append]
        exact if_pos (by simp; omega)
      simp [get_forecast, get_weather_data, hkey, hclamp, hloop]

/-- Concrete provider list used by the C2 witness. -/
def c2Items : List ForecastItem :=
  [⟨"2024-01-03 00:00:00", "snow", "0"⟩, ⟨"2024-01-04 00:00:00", "fog", "2"⟩]

/-- C2 (witness): the amended statement instantiated at `days = 0`. -/
theorem c2_nonpos_days_first_line_witness :
    get_forecast (some "k") "Z" 0 (.ok c2Items) =
      "Forecast for " ++ "Z" ++ ":\n" ++
        String.intercalate "\n" ((c2Items.take 1).map formatLine) :=
  c2_nonpos_days_first_line "k" "Z" c2Items 0 (by decide) (by decide)

/-- C3: `get_current_weather` is a total function into text — for every
provider outcome it returns a string rather than raising; on a provider HTTP
error the string embeds the provider's error body, on any other exception it
embeds the exception message, and on success it is the formatted summary. -/
theorem c3_weather_error_to_text (k city : String) (out : FetchOutcome CurrentData)
    (hk : k ≠ "") :
    (∀ d, out = .ok d →
      get_current_weather (some k) city out =
        "Current weather in " ++ city ++ ": " ++ d.desc ++ ", Temperature: " ++
          d.temp ++ "°C, Humidity: " ++ d.humidity ++ "%") ∧
    (∀ b, out = .httpError b →
      get_current_weather (some k) city out = "Error fetching weather: " ++ b) ∧
    (∀ m, out = .exn m →
      get_current_weather (some k) city out = "An error occurred: " ++ m) := by
  have hkey : keyFalsy (some k) = false := by simp [keyFalsy, hk]
  refine ⟨?_, ?_, ?_⟩ <;> rintro x rfl <;>
    simp [get_current_weather, get_weather_data, hkey]

/-- C3 (witness): at the concrete outcome of an unreachable provider the
result is the error text, and on an HTTP error it embeds the body. -/
theorem c3_weather_error_to_text_witness :
    get_current_weather (some "k") "Paris" (.httpError "boom body") =
      "Error fetching weather: " ++ "boom body" :=
  (c3_weather_error_to_text "k" "Paris" (.httpError "boom body")
    (by decide)).2.1 "boom body" rfl

/-- C7: a falsy model-provider key halts client startup with the visible
error, and a missing weather-provider key makes both tools return the
descriptive error string for every provider outcome — in particular the
result does not depend on the provider interaction at all, so the provider
is never contacted. -/
theorem c7_missing_keys (city : String) :
    client_startup none =
      .halted "OPENROUTER_API_KEY not found in environment variables." ∧
    (∀ out, get_current_weather none city out =
      "An error occurred: OPENWEATHER_API_KEY is not set.") ∧
    (∀ days out, get_forecast none city days out =
      "An error occurred: OPENWEATHER_API_KEY is not set.") := by
  refine ⟨rfl, fun out => ?_, fun days out => ?_⟩ <;>
    simp [get_current_weather, get_forecast, get_weather_data, keyFalsy]

/-- C7 (witness): the startup halt and both tools' error strings at concrete
inputs. -/
theorem c7_missing_keys_witness :
    get_current_weather none "Paris" (.ok ⟨"sunny", "20", "50"⟩) =
      "An error occurred: OPENWEATHER_API_KEY is not set." :=
  (c7_missing_keys "Paris").2.1 (.ok ⟨"sunny", "20", "50"⟩)

/-- C10: for every `days ≥ 5` the result of `get_forecast` coincides with the
result at `days = 5`, whatever the key, city and provider outcome — the
clamp makes the result independent of how far `days` exceeds 5. -/
theorem c10_clamp_independent (key : Option String) (city : String) (d : Int)
    (provider : FetchOutcome (List ForecastItem)) (hd : 5 ≤ d) :
    get_forecast key city d provider = get_forecast key city 5 provider := by
  have h1 : (if d > 5 then (5 : Int) else d) = 5 := by
    rcases lt_or_le 5 d with h5 | h5
    · exact if_pos h5
    · rw [if_neg (by omega)]; omega
  have h2 : (if (5 : Int) > 5 then (5 : Int) else 5) = 5 := if_neg (by omega)
  simp only [get_forecast, h1, h2]

/-! ## Claims about the turn orchestrator -/

/-- Whatever the invocation outcome, the message the tool loop appends has
role `"tool"`. -/
theorem toolMessageFor_role (env : TurnEnv) (i : Nat) (tc : ToolCall) :
    (toolMessageFor env i tc).role = "tool" := by
  cases h : env.toolResults i <;> simp [toolMessageFor, h]

/-- Whatever the invocation outcome, the message the tool loop appends
carries the id of the requested call it answers. -/
theorem toolMessageFor_tcid (env : TurnEnv) (i : Nat) (tc : ToolCall) :
    (toolMessageFor env i tc).tool_call_id = tc.id := by
  cases h : env.toolResults i <;> simp [toolMessageFor, h]

/-- The second component of an enumerated-list element is an element of the
underlying list. -/
theorem snd_mem_of_mem_enumFrom {α : Type} :
    ∀ (l : List α) (n : Nat) (p : Nat × α), p ∈ List.enumFrom n l → p.2 ∈ l
  | [], _, _, h => by simp [List.enumFrom] at h
  | a :: l, n, p, h => by
      rcases List.mem_cons.mp (by simpa [List.enumFrom] using h) with h1 | h1
      · subst h1; simp
      · exact List.mem_cons_of_mem _ (snd_mem_of_mem_enumFrom l (n + 1) p h1)

/-- C4: when the first model response requests exactly two tool calls, the
turn appends exactly two tool-role messages, in request order, each carrying
its call's id, followed by one assistant message — and a failed first
invocation contributes the failure text while the loop continues to the
second call. -/
theorem c4_two_tool_calls_two_tool_msgs (env : TurnEnv) (u : String)
    (msgs0 : List Message) (ts : List MCPTool) (am : AssistantMsg)
    (tc1 tc2 : ToolCall)
    (hh : env.health = .status 200) (hs : env.setup = .ok ts)
    (hf : env.firstCall = .ok am) (ht : am.tool_calls = [tc1, tc2]) :
    (run_agent_turn env u msgs0).messages =
      msgs0 ++ [⟨"user", u, none⟩, ⟨"assistant", am.content, none⟩,
        toolMessageFor env 0 tc1, toolMessageFor env 1 tc2, finalAssistantFor env] ∧
    (toolMessageFor env 0 tc1).role = "tool" ∧
    (toolMessageFor env 0 tc1).tool_call_id = tc1.id ∧
    (toolMessageFor env 1 tc2).role = "tool" ∧
    (toolMessageFor env 1 tc2).tool_call_id = tc2.id ∧
    (finalAssistantFor env).role = "assistant" ∧
    (∀ e, env.toolResults 0 = .raised e →
      (toolMessageFor env 0 tc1).content = "Tool " ++ tc1.name ++ " call failed: " ++ e) := by
  refine ⟨?_, toolMessageFor_role env 0 tc1, toolMessageFor_tcid env 0 tc1,
    toolMessageFor_role env 1 tc2, toolMessageFor_tcid env 1 tc2, ?_, ?_⟩
  · have hne : am.tool_calls ≠ [] := by simp [ht]
    cases hsc : env.secondCall with
    | ok c =>
        simp [run_agent_turn, hh, hs, hf, ht, hne, hsc, toolLoop_fst, List.enumFrom,
          finalAssistantFor]
    | raised e =>
        simp [run_agent_turn, hh, hs, hf, ht, hne, hsc, toolLoop_fst, List.enumFrom,
          finalAssistantFor]
  · cases hsc : env.secondCall <;> simp [finalAssistantFor, hsc]
  · intro e he
    simp [toolMessageFor, he]

/-- Turn environment for the C4 witness: the first invocation raises, the
second succeeds. -/
def c4Env : TurnEnv :=
  { health := .status 200
    setup := .ok []
    firstCall := .ok ⟨"", [⟨some "call-1", "get_current_weather", some "not json"⟩,
      ⟨some "call-2", "get_forecast", some "\x7b\x7d"⟩]⟩
    parseJson := fun s => if s = "\x7b\x7d" then some [] else none
    toolResults := fun i =>
      if i = 0 then .raised "boom" else .ok (.withContent [.text "ok"])
    secondCall := .ok "final answer" }

/-- C4 (witness): the transcript shape at a concrete turn whose first
invocation fails and whose second succeeds. -/
theorem c4_two_tool_calls_two_tool_msgs_witness :
    (run_agent_turn c4Env "hi" []).messages =
      [] ++ [⟨"user", "hi", none⟩, ⟨"assistant", "", none⟩,
        toolMessageFor c4Env 0 ⟨some "call-1", "get_current_weather", some "not json"⟩,
        toolMessageFor c4Env 1 ⟨some "call-2", "get_forecast", some "\x7b\x7d"⟩,
        finalAssistantFor c4Env] :=
  (c4_two_tool_calls_two_tool_msgs c4Env "hi" [] [] _ _ _ rfl rfl rfl rfl).1

/-- C5: when the health probe returns a non-200 status or raises, the turn
stops before the streaming-session stage, surfaces an error, and leaves the
transcript extended by the user message only. -/
theorem c5_health_failure_aborts (env : TurnEnv) (u : String) (msgs0 : List Message)
    (h : ∀ c, env.health = .status c → c ≠ 200) :
    (run_agent_turn env u msgs0).messages = msgs0 ++ [⟨"user", u, none⟩] ∧
    (run_agent_turn env u msgs0).sessionAttempted = false ∧
    (run_agent_turn env u msgs0).errors ≠ [] := by
  cases hh : env.health with
  | error m => simp [run_agent_turn, hh]
  | status c =>
      have hc := h c hh
      simp [run_agent_turn, hh, hc]

/-- Turn environment for the C5 witness: the health probe answers 500. -/
def c5Env : TurnEnv :=
  { health := .status 500
    setup := .ok []
    firstCall := .ok ⟨"x", []⟩
    parseJson := fun _ => some []
    toolResults := fun _ => .ok (.noContent "r")
    secondCall := .ok "f" }

/-- C5 (witness): a turn against a backend whose health check answers 500. -/
theorem c5_health_failure_aborts_witness :
    (run_agent_turn c5Env "hello" []).messages = [] ++ [⟨"user", "hello", none⟩] ∧
    (run_agent_turn c5Env "hello" []).sessionAttempted = false ∧
    (run_agent_turn c5Env "hello" []).errors ≠ [] :=
  c5_health_failure_aborts c5Env "hello" []
    (fun c hc => by injection hc with h1; omega)

/-- C8: a successful turn in which the model requests no tool calls extends
the transcript by exactly the user message and one assistant message whose
content is the model's returned content, with a single model call made. -/
theorem c8_no_tool_calls_round_trip (env : TurnEnv) (u : String)
    (msgs0 : List Message) (ts : List MCPTool) (am : AssistantMsg)
    (hh : env.health = .status 200) (hs : env.setup = .ok ts)
    (hf : env.firstCall = .ok am) (hnc : am.tool_calls = []) :
    (run_agent_turn env u msgs0).messages =
      msgs0 ++ [⟨"user", u, none⟩, ⟨"assistant", am.content, none⟩] ∧
    (run_agent_turn env u msgs0).modelCalls = 1 := by
  constructor <;> simp [run_agent_turn, hh, hs, hf, hnc]

/-- Turn environment for the C8 witness. -/
def c8Env : TurnEnv :=
  { health := .status 200
    setup := .ok []
    firstCall := .ok ⟨"It is sunny.", []⟩
    parseJson := fun _ => some []
    toolResults := fun _ => .ok (.noContent "r")
    secondCall := .ok "unused" }

/-- C8 (witness): the round trip at a concrete no-tool-call turn. -/
theorem c8_no_tool_calls_round_trip_witness :
    (run_agent_turn c8Env "weather?" []).messages =
      [] ++ [⟨"user", "weather?", none⟩, ⟨"assistant", "It is sunny.", none⟩] ∧
    (run_agent_turn c8Env "weather?" []).modelCalls = 1 :=
  c8_no_tool_calls_round_trip c8Env "weather?" [] [] _ rfl rfl rfl rfl

/-- C9: every requested tool call leads to exactly one recorded invocation
with its parsed arguments (so the turn is never aborted by argument
parsing), and the parse of a malformed or absent arguments string degrades
to the empty argument object. -/
theorem c9_malformed_args_degrade (env : TurnEnv) (u : String)
    (msgs0 : List Message) (ts : List MCPTool) (am : AssistantMsg)
    (hh : env.health = .status 200) (hs : env.setup = .ok ts)
    (hf : env.firstCall = .ok am) :
    (run_agent_turn env u msgs0).toolInvocations =
      am.tool_calls.map (fun tc => (tc.name, parseArgs env.parseJson tc.arguments)) ∧
    (∀ s, s ≠ "" → env.parseJson s = none →
      parseArgs env.parseJson (some s) = []) ∧
    (env.parseJson "\x7b\x7d" = some [] →
      parseArgs env.parseJson none = [] ∧ parseArgs env.parseJson (some "") = []) := by
  refine ⟨?_, ?_, ?_⟩
  · by_cases hnc : am.tool_calls = []
    · simp [run_agent_turn, hh, hs, hf, hnc]
    · cases hsc : env.secondCall <;>
        simp [run_agent_turn, hh, hs, hf, hnc, hsc, toolLoop_snd]
  · intro s hs0 hp
    simp [parseArgs, hs0, hp]
  · intro hp
    exact ⟨by simp [parseArgs, hp], by simp [parseArgs, hp]⟩

/-- Turn environment for the C9 witness: `json.loads` fails on the malformed
arguments string, succeeds on the empty-object literal. -/
def c9Env : TurnEnv :=
  { health := .status 200
    setup := .ok []
    firstCall := .ok ⟨"", [⟨some "call-1", "get_forecast", some "\x7bbroken"⟩,
      ⟨some "call-2", "get_current_weather", none⟩]⟩
    parseJson := fun s => if s = "\x7b\x7d" then some [] else none
    toolResults := fun _ => .ok (.withContent [.text "ok"])
    secondCall := .ok "final" }

/-- C9 (witness): both calls — one with malformed arguments, one with absent
arguments — are invoked with the empty argument object. -/
theorem c9_malformed_args_degrade_witness :
    (run_agent_turn c9Env "hi" []).toolInvocations =
      [(⟨some "call-1", "get_forecast", some "\x7bbroken"⟩ : ToolCall),
        (⟨some "call-2", "get_current_weather", none⟩ : ToolCall)].map
        (fun tc => (tc.name, parseArgs c9Env.parseJson tc.arguments)) :=
  (c9_malformed_args_degrade c9Env "hi" [] [] _ rfl rfl rfl).1

/-- C6 (counterexample, amended-claim subject): when the model issues two
tool calls with the same id, each appended tool-role message's identifier
matches two preceding requests, not exactly one. -/
def c6Calls : List ToolCall :=
  [⟨some "x", "get_forecast", none⟩, ⟨some "x", "get_forecast", none⟩]

/-- Turn environment for the C6 counterexample: duplicate tool-call ids. -/
def c6Env : TurnEnv :=
  { health := .status 200
    setup := .ok []
    firstCall := .ok ⟨"", c6Calls⟩
    parseJson := fun _ => some []
    toolResults := fun _ => .ok (.noContent "out")
    secondCall := .ok "final" }

/-- C6 (counterexample): the turn with duplicated request ids produces a
tool-role message whose identifier does not match exactly one request. -/
theorem c6_duplicate_ids_counterexample :
    ∃ m ∈ (run_agent_turn c6Env "hi" []).messages, m.role = "tool" ∧
      (c6Calls.filter (fun tc => tc.id = m.tool_call_id)).length ≠ 1 := by
  decide

/-- C6 (amended): every tool-role message appended during a turn carries the
id of the request it answers; provided the model's requested tool-call ids
are pairwise distinct, that identifier matches exactly one request of the
turn. -/
theorem c6_tool_msgs_unique_match (env : TurnEnv) (u : String)
    (msgs0 : List Message) (am : AssistantMsg)
    (hf : env.firstCall = .ok am)
    (hnd : (am.tool_calls.map ToolCall.id).Nodup) :
    ∀ m ∈ (run_agent_turn env u msgs0).messages.drop msgs0.length,
      m.role = "tool" →
      (am.tool_calls.filter (fun tc => tc.id = m.tool_call_id)).length = 1 := by
  intro m hm hrole
  cases hh : env.health with
  | error e =>
      simp [run_agent_turn, hh, List.drop_left] at hm
      subst hm; simp at hrole
  | status c =>
      by_cases hc : c = 200
      · subst hc
        cases hsetup : env.setup with
        | raised e =>
            simp [run_agent_turn, hh, hsetup, List.drop_left] at hm
            rcases hm with hm | hm <;> (subst hm; simp at hrole)
        | ok ts =>
            by_cases hnc : am.tool_calls = []
            · simp [run_agent_turn, hh, hsetup, hf, hnc, List.drop_left] at hm
              rcases hm with hm | hm <;> (subst hm; simp at hrole)
            · cases hsc : env.secondCall with
              | raised e =>
                  simp [run_agent_turn, hh, hsetup, hf, hnc, hsc, toolLoop_fst,
                    List.drop_left] at hm
                  rcases hm with hm | hm | hm | hm
                  · subst hm; simp at hrole
                  · subst hm; simp at hrole
                  · rcases hm with ⟨a, b, hp, rfl⟩
                    rw [toolMessageFor_tcid]
                    exact filter_id_length_one am.tool_calls b.id hnd
                      (List.mem_map_of_mem ToolCall.id
                        (snd_mem_of_mem_enumFrom am.tool_calls 0 (a, b) hp))
                  · subst hm; simp at hrole
              | ok fc =>
                  simp [run_agent_turn, hh, hsetup, hf, hnc, hsc, toolLoop_fst,
                    List.drop_left] at hm
                  rcases hm with hm | hm | hm | hm
                  · subst hm; simp at hrole
                  · subst hm; simp at hrole
                  · rcases hm with ⟨a, b, hp, rfl⟩
                    rw [toolMessageFor_tcid]
                    exact filter_id_length_one am.tool_calls b.id hnd
                      (List.mem_map_of_mem ToolCall.id
                        (snd_mem_of_mem_enumFrom am.tool_calls 0 (a, b) hp))
                  · subst hm; simp at hrole
      · simp [run_agent_turn, hh, hc, List.drop_left] at hm
        subst hm; simp at hrole

/-- Turn environment for the C6 witness: two requests with distinct ids. -/
def c6WEnv : TurnEnv :=
  { health := .status 200
    setup := .ok []
    firstCall := .ok ⟨"", [⟨some "a", "get_forecast", none⟩,
      ⟨some "b", "get_current_weather", none⟩]⟩
    parseJson := fun _ => some []
    toolResults := fun _ => .ok (.noContent "out")
    secondCall := .ok "final" }

/-- C6 (witness): with distinct request ids, the first appended tool message
matches exactly one request. -/
theorem c6_tool_msgs_unique_match_witness :
    ([(⟨some "a", "get_forecast", none⟩ : ToolCall),
      ⟨some "b", "get_current_weather", none⟩].filter
        (fun tc => tc.id = (⟨"tool", "out", some "a"⟩ : Message).tool_call_id)).length = 1 :=
  c6_tool_msgs_unique_match c6WEnv "hi" [] _ rfl (by decide)
    ⟨"tool", "out", some "a"⟩ (by decide) rfl

/-- C10 (witness): concrete instance at `days = 7`. -/
theorem c10_clamp_independent_witness :
    get_forecast (some "k") "P" 7
        (.ok [⟨"2024-01-01 00:00:00", "a", "1"⟩, ⟨"2024-01-02 00:00:00", "b", "2"⟩]) =
      get_forecast (some "k") "P" 5
        (.ok [⟨"2024-01-01 00:00:00", "a", "1"⟩, ⟨"2024-01-02 00:00:00", "b", "2"⟩]) :=
  c10_clamp_independent (some "k") "P" 7 _ (by omega)
